import Mathlib

/-!
Verification of the SLO-advisor guide generator (scripts/slo-advisor/generate-slo-guide.py).

Texts are modelled as `List Char`; model names as `String`.  Python's
optional tiktoken dependency is absent in the modelled configuration
(`HAS_TIKTOKEN = False`), so `estimate_tokens` is the character-based
heuristic, exactly as the source's fallback path.  Whitespace predicates
model Python's ASCII whitespace characters.
-/

/-- Python whitespace characters, as matched by the `\s` regex class and by
`str.strip()` (ASCII portion). -/
def isPyWS (c : Char) : Bool :=
  c = ' ' || c = '\t' || c = '\n' || c = '\r' || c = '\x0b' || c = '\x0c'

/-- Characters other than newline; the regex `.` metacharacter (no DOTALL). -/
def notNL (c : Char) : Bool := c != '\n'

/-- Embeds `estimate_tokens` (generate-slo-guide.py, lines 81-110) in the
heuristic fallback path: `len(text) // 4`.  The `model` argument is accepted
and unused, exactly as in that path of the source. -/
def estimate_tokens (text : List Char) (model : String) : Nat :=
  text.length / 4

/-- Embeds the `MODEL_TOKEN_LIMITS` table (lines 74-78). -/
def MODEL_TOKEN_LIMITS : List (String × Nat) :=
  [("gpt-4", 7000), ("gpt-4-turbo", 100000), ("gpt-3.5-turbo", 14000)]

/-- Embeds `MODEL_TOKEN_LIMITS.get(model, MODEL_TOKEN_LIMITS["gpt-4"])`
(line 130); the default entry `MODEL_TOKEN_LIMITS["gpt-4"]` is 7000. -/
def lookupLimit (model : String) : Nat :=
  match MODEL_TOKEN_LIMITS.lookup model with
  | some v => v
  | none => 7000

/-- Embeds `check_token_limit` (lines 113-135): returns
`(exceeds_limit, discovery_tokens, limit)`.  The `observability_platform`
argument is accepted and unused, as in the source. -/
def check_token_limit (discovery_content : List Char)
    (observability_platform : String) (model : String) : Bool × Nat × Nat :=
  let discovery_tokens := estimate_tokens discovery_content model
  let limit := lookupLimit model
  (discovery_tokens > limit, discovery_tokens, limit)

/-- Splits a character list at its first newline: `some (before, after)`
with the newline itself consumed, or `none` when no newline occurs.  Used to
model the lazy `.+?` followed by `\n` in the section-split regex. -/
def splitAtNL : List Char → Option (List Char × List Char)
  | [] => none
  | c :: r =>
    if c = '\n' then some ([], r)
    else (splitAtNL r).map (fun p => (c :: p.1, p.2))

/-- Backtracking over the greedy `\s+` of the regex `\n(##\s+.+?)\n`: tries
whitespace-run lengths from `n` down to 1; for each, the lazy `.+?` matches
up to the first following newline provided at least one non-newline
character precedes it.  Returns `(w, d, tail)` with
`rest = w ++ d ++ '\n' :: tail`. -/
def tryMatch : Nat → List Char → Option (List Char × List Char × List Char)
  | 0, _ => none
  | n + 1, rest =>
    match splitAtNL (rest.drop (n + 1)) with
    | some (d, tail) =>
      if d = [] then tryMatch n rest
      else some (rest.take (n + 1), d, tail)
    | none => tryMatch n rest

/-- Matches `\s+.+?\n` at the start of `rest` with Python's backtracking
order (greedy `\s+`, lazy `.+?`). -/
def matchWS (rest : List Char) : Option (List Char × List Char × List Char) :=
  tryMatch (rest.takeWhile isPyWS).length rest

/-- Scans for the leftmost match of the regex `\n(MARKER\s+.+?)\n` (with
`MARKER` = `##` or `###`), as `re.split` does.  Returns
`some (pre, header, tail)` where `pre` is the text before the consumed
leading newline, `header` the captured group, and `tail` the text after the
consumed trailing newline. -/
def findSplit (marker : List Char) : List Char → Option (List Char × List Char × List Char)
  | [] => none
  | c :: rest =>
    if c = '\n' && rest.take marker.length == marker then
      match matchWS (rest.drop marker.length) with
      | some (w, d, tail) => some ([], marker ++ w ++ d, tail)
      | none =>
        match findSplit marker rest with
        | some (pre, h, tl) => some (c :: pre, h, tl)
        | none => none
    else
      match findSplit marker rest with
      | some (pre, h, tl) => some (c :: pre, h, tl)
      | none => none

/-- Fuel-indexed worker for `splitBy`; the fuel bounds the number of
matches, and `t.length` is always sufficient. -/
def splitByAux (marker : List Char) : Nat → List Char → List (List Char)
  | 0, t => [t]
  | n + 1, t =>
    match findSplit marker t with
    | none => [t]
    | some (pre, h, tail) => pre :: h :: splitByAux marker n tail

/-- Embeds `re.split(r'\n(MARKER\s+.+?)\n', text)` (lines 157 and 176):
the list of pieces alternating text and captured headers. -/
def splitBy (marker : List Char) (t : List Char) : List (List Char) :=
  splitByAux marker t.length t

/-- Major-heading marker `##`. -/
def hh2 : List Char := ['#', '#']

/-- Subsection marker `###`. -/
def hh3 : List Char := ['#', '#', '#']

/-- Embeds the subsection pairing loop `for j in range(0, len(subsections), 2)`
(lines 177-181): element `j` is glued to element `j+1` with a newline; a
final unpaired element stands alone. -/
def pairUp : List (List Char) → List (List Char)
  | [] => []
  | [x] => [x]
  | x :: y :: r => (x ++ '\n' :: y) :: pairUp r

/-- Embeds the shared accumulation step (lines 184-190, 193-199, 206-212,
217-223): close the running buffer as a chunk when adding the piece would
exceed the budget and the buffer is non-empty; otherwise append the piece to
the buffer with a blank-line separator.  Returns the updated
`(current_chunk, current_tokens, chunks)`. -/
def addPiece (max_tokens : Nat) (model : String) (piece cur : List Char)
    (curTok : Nat) (chunks : List (List Char)) : List Char × Nat × List (List Char) :=
  let st := estimate_tokens piece model
  if curTok + st > max_tokens && cur != [] then
    (piece, st, chunks ++ [cur])
  else
    ((if cur = [] then piece else cur ++ '\n' :: '\n' :: piece), curTok + st, chunks)

/-- Feeds a list of subsection units through `addPiece` in order
(the body of the `for j` loop, lines 177-190). -/
def feedAll (max_tokens : Nat) (model : String) :
    List (List Char) → List Char → Nat → List (List Char) → List Char × Nat × List (List Char)
  | [], cur, curTok, chunks => (cur, curTok, chunks)
  | u :: us, cur, curTok, chunks =>
    match addPiece max_tokens model u cur curTok chunks with
    | (cur1, tok1, ch1) => feedAll max_tokens model us cur1 tok1 ch1

/-- Embeds the main `while i < len(sections)` loop of
`chunk_discovery_content` (lines 163-228), including the final
`if current_chunk: chunks.append(current_chunk)`.  A piece starting with
`##` is glued to the following piece (lines 168-202); if that glued section
exceeds the budget it is re-split on `###` boundaries and paired
(lines 174-190); a trailing header piece and ordinary pieces go through the
plain accumulation step. -/
def processSections (max_tokens : Nat) (model : String) :
    List (List Char) → List Char → Nat → List (List Char) → List (List Char)
  | [], cur, _, chunks => if cur = [] then chunks else chunks ++ [cur]
  | sec :: rest, cur, curTok, chunks =>
    if sec.take 2 = hh2 then
      match rest with
      | next :: rest2 =>
        let swh := sec ++ '\n' :: next
        let st := estimate_tokens swh model
        if st > max_tokens then
          match feedAll max_tokens model (pairUp (splitBy hh3 swh)) cur curTok chunks with
          | (cur1, tok1, ch1) => processSections max_tokens model rest2 cur1 tok1 ch1
        else
          match addPiece max_tokens model swh cur curTok chunks with
          | (cur1, tok1, ch1) => processSections max_tokens model rest2 cur1 tok1 ch1
      | [] =>
        match addPiece max_tokens model sec cur curTok chunks with
        | (cur1, _, ch1) => if cur1 = [] then ch1 else ch1 ++ [cur1]
    else
      match addPiece max_tokens model sec cur curTok chunks with
      | (cur1, tok1, ch1) => processSections max_tokens model rest cur1 tok1 ch1

/-- Embeds `chunk_discovery_content` (lines 138-230): split on major
headings, accumulate under the budget, and fall back to the whole input if
no chunk was produced (`return chunks if chunks else [discovery_content]`). -/
def chunk_discovery_content (discovery_content : List Char) (max_tokens : Nat)
    (model : String) : List (List Char) :=
  let chunks := processSections max_tokens model (splitBy hh2 discovery_content) [] 0 []
  if chunks = [] then [discovery_content] else chunks

/-- Rebuilds the original text from a `splitBy` piece list: `re.split` with
this pattern consumes exactly one newline before and one after each captured
header. -/
def rebuild : List (List Char) → List Char
  | [] => []
  | [x] => x
  | x :: h :: r => x ++ '\n' :: (h ++ '\n' :: rebuild r)

/-- Joins chunks with the double-newline separator used by the caller when
reassembling chunked content. -/
def joinSep : List (List Char) → List Char
  | [] => []
  | [x] => x
  | x :: y :: r => x ++ '\n' :: '\n' :: joinSep (y :: r)

/-- Maximal newline-free segments of a text, in order.  Two texts with the
same segments are equal up to insertion, deletion or merging of newline
separators — the normalization the chunker is allowed to perform at
section boundaries (it rewrites single newlines around matched headings
into blank-line separators and may drop a leading separator newline). -/
def segs : List Char → List (List Char)
  | [] => []
  | c :: r =>
    if c = '\n' then segs r
    else (c :: r.takeWhile notNL) :: segs (r.dropWhile notNL)
termination_by l => l.length
decreasing_by
  · simp only [List.length_cons]; omega
  · simp only [List.length_cons]
    exact Nat.lt_succ_of_le ((List.dropWhile_sublist notNL).length_le)

/-- Total of the token estimates of the units the main loop will form from
a piece list (headers glued to their following piece), used to show that a
within-budget input is never flushed into a second chunk. -/
def unitTokSum (model : String) : List (List Char) → Nat
  | [] => 0
  | sec :: rest =>
    if sec.take 2 = hh2 then
      match rest with
      | next :: rest2 => estimate_tokens (sec ++ '\n' :: next) model + unitTokSum model rest2
      | [] => estimate_tokens sec model
    else
      estimate_tokens sec model + unitTokSum model rest

/-!
Orchestrator embedding.

The source function `call_openai_api` (generate-slo-guide.py, lines
421-627) is embedded as a deterministic state machine over a script
`Nat → ApiEvent` giving the outcome of each successive
`client.chat.completions.create` call.  One caveat, stated precisely:
in the source file the response-validation block (lines 477-491) is
dedented to the `try:` keyword's own column — a Python `SyntaxError`
("expected 'except' or 'finally' block" at line 478) — and the
`return generated_content` statement (line 493) is indented under the
`if not generated_content.strip():` check, directly after its `raise`.
The embedding reads the block structure the layout encodes at the only
indentation the surrounding handlers permit: the validation block inside
the `try`, and the `return` inside the whitespace-check branch, where it
is unreachable.  A structurally valid, non-empty, non-whitespace response
therefore completes the `try` body without returning and the attempt loop
simply advances.  Backoff durations are recorded as rationals
(`initial_backoff * 2 ^ attempt` is exact in binary floating point for
these values); `print` warnings are not modelled. -/

/-- Decides whether `needle` is a prefix of `hay`. -/
def startsWithL : List Char → List Char → Bool
  | _, [] => true
  | [], _ :: _ => false
  | c :: cs, d :: ds => c == d && startsWithL cs ds

/-- Decides Python's substring containment `needle in hay`. -/
def containsSub : List Char → List Char → Bool
  | [], needle => needle == []
  | c :: cs, needle => startsWithL (c :: cs) needle || containsSub cs needle

/-- Models `"authentication" in str(e).lower() or "api key" in str(e).lower()`
(line 569); lowercasing is per-character, which agrees with Python's
`str.lower()` on ASCII text. -/
def isAuthMsg (msg : String) : Bool :=
  containsSub (msg.data.map Char.toLower) (("authentication").data) ||
  containsSub (msg.data.map Char.toLower) (("api key").data)

/-- Models `any(code in error_str for code in ['500','502','503','504','429'])`
on the lowercased message (lines 576-577). -/
def isTransientCode (msg : String) : Bool :=
  containsSub (msg.data.map Char.toLower) (("500").data) ||
  containsSub (msg.data.map Char.toLower) (("502").data) ||
  containsSub (msg.data.map Char.toLower) (("503").data) ||
  containsSub (msg.data.map Char.toLower) (("504").data) ||
  containsSub (msg.data.map Char.toLower) (("429").data)

/-- Outcome of one `client.chat.completions.create` call.  `response`
carries the `message.content` of each choice (`none` models a null
content); `responseNoChoices` models a falsy response object or falsy
`choices` attribute; the remaining constructors model the exception types
the handlers catch. -/
inductive ApiEvent where
  | response (choices : List (Option String))
  | responseNoChoices
  | rateLimitError
  | apiTimeoutError
  | apiConnectionError
  | apiError (msg : String)
  | unexpectedError (msg : String)
deriving DecidableEq

/-- Terminal outcome of `call_openai_api`: the returned string, or the
exception class and message that escapes the function. -/
inductive CallResult where
  | ok (content : String)
  | valueError (msg : String)
  | timeoutError (msg : String)
  | exception (msg : String)
deriving DecidableEq

/-- Effect of one attempt on the control flow of the retry loops. -/
inductive AttemptStep where
  | terminal (r : CallResult)
  | sleepRetry (d : ℚ)
  | passRetry
  | nextModel
deriving DecidableEq

/-- Full observable trace of one orchestrated call: the model used by each
attempt in order, the backoff sleeps in order, and the terminal result. -/
structure CallTrace where
  calls : List String
  sleeps : List ℚ
  result : CallResult
deriving DecidableEq

/-- Embeds `models_to_try = [model, "gpt-3.5-turbo"] if model == "gpt-4"
else [model]` (line 452). -/
def models_to_try (model : String) : List String :=
  if model = "gpt-4" then ["gpt-4", "gpt-3.5-turbo"] else [model]

/-- Models `model_name == "gpt-4" and "gpt-3.5-turbo" in models_to_try`
(lines 511, 536, 558, 586, 609). -/
def hasFallback (primary modelName : String) : Bool :=
  modelName == "gpt-4" && (models_to_try primary).contains ("gpt-3.5-turbo")

/-- Models Python's `not generated_content.strip()`: the string is empty or
consists solely of whitespace. -/
def isWsOnly (s : String) : Bool := s.data.all isPyWS

/-- Classifies one attempt's event exactly as the `try`/`except` chain of
lines 459-613 does.  Validation failures raise `ValueError`, re-raised
unchanged by `except ValueError: raise` and the outer handler; a valid
response falls through without returning (see the module comment above);
transient kinds sleep `initial_backoff * 2 ** attempt` and retry while
`attempt < max_retries`, then either break to the fallback model or raise;
an authentication-flavoured `APIError` raises `ValueError` at once.
`Exception` raises are wrapped by the outer handler with the prefix
"OpenAI API call failed: ". -/
def classify (primary modelName : String) (timeout maxRetries attempt : Nat)
    (initial_backoff : ℚ) : ApiEvent → AttemptStep
  | .responseNoChoices =>
    .terminal (.valueError ("OpenAI API returned invalid response structure: no choices"))
  | .response [] =>
    .terminal (.valueError ("OpenAI API returned invalid response structure: no choices"))
  | .response (none :: _) =>
    .terminal (.valueError ("OpenAI API returned empty content in response"))
  | .response (some s :: _) =>
    if s = "" then .terminal (.valueError ("OpenAI API returned empty content in response"))
    else if isWsOnly s then
      .terminal (.valueError ("OpenAI API returned only whitespace in response"))
    else .passRetry
  | .rateLimitError =>
    if attempt < maxRetries then .sleepRetry (initial_backoff * 2 ^ attempt)
    else if hasFallback primary modelName then .nextModel
    else .terminal (.exception ("OpenAI API call failed: " ++
      "Rate limit exceeded for " ++ modelName ++ " (attempt " ++ toString (attempt + 1) ++
      "/" ++ toString (maxRetries + 1) ++ "). " ++
      "Max retries exceeded. Please wait before retrying or use a different API key."))
  | .apiTimeoutError =>
    if attempt < maxRetries then .sleepRetry (initial_backoff * 2 ^ attempt)
    else if hasFallback primary modelName then .nextModel
    else .terminal (.timeoutError ("Request to " ++ modelName ++ " timed out (attempt " ++
      toString (attempt + 1) ++ "/" ++ toString (maxRetries + 1) ++ "). " ++
      "Max retries exceeded after " ++ toString timeout ++
      " seconds. The prompt may be too long or the API is experiencing delays."))
  | .apiConnectionError =>
    if attempt < maxRetries then .sleepRetry (initial_backoff * 2 ^ attempt)
    else if hasFallback primary modelName then .nextModel
    else .terminal (.exception ("OpenAI API call failed: " ++
      "Connection error with " ++ modelName ++ " (attempt " ++ toString (attempt + 1) ++
      "/" ++ toString (maxRetries + 1) ++ "). " ++
      "Max retries exceeded. Please check your internet connection and try again."))
  | .apiError msg =>
    if isAuthMsg msg then
      .terminal (.valueError ("Invalid OpenAI API key. Please check your OPENAI_API_KEY environment variable."))
    else if isTransientCode msg && attempt < maxRetries then
      .sleepRetry (initial_backoff * 2 ^ attempt)
    else if hasFallback primary modelName && isTransientCode msg then .nextModel
    else .terminal (.exception ("OpenAI API call failed: " ++
      "OpenAI API error for " ++ modelName ++ ": " ++ msg))
  | .unexpectedError msg =>
    if attempt < maxRetries then .sleepRetry (initial_backoff * 2 ^ attempt)
    else if hasFallback primary modelName then .nextModel
    else .terminal (.exception ("OpenAI API call failed: " ++
      "Unexpected error calling " ++ modelName ++ ": " ++ msg))

/-- Embeds the attempt loop `for attempt in range(max_retries + 1)`
(lines 458-613) for one candidate model.  `rem` is the number of
iterations left (`max_retries + 1 - attempt`); the result's last component
is `none` when the loop finished without a terminal raise (broke to, or
fell through to, the next candidate model). -/
def attemptLoop (script : Nat → ApiEvent) (primary modelName : String)
    (timeout maxRetries : Nat) (initial_backoff : ℚ) (callIdx : Nat) :
    Nat → Nat → List String × List ℚ × Option CallResult
  | _, 0 => ([], [], none)
  | attempt, rem + 1 =>
    match classify primary modelName timeout maxRetries attempt initial_backoff (script callIdx) with
    | .terminal r => ([modelName], [], some r)
    | .sleepRetry d =>
      match attemptLoop script primary modelName timeout maxRetries initial_backoff
          (callIdx + 1) (attempt + 1) rem with
      | (cs, ss, r) => (modelName :: cs, d :: ss, r)
    | .passRetry =>
      match attemptLoop script primary modelName timeout maxRetries initial_backoff
          (callIdx + 1) (attempt + 1) rem with
      | (cs, ss, r) => (modelName :: cs, ss, r)
    | .nextModel => ([modelName], [], none)

/-- Embeds the loop `for model_name in models_to_try` (lines 454-617) and
the final `raise Exception("All OpenAI models failed after retries")`
(line 620), wrapped by the outer handler (lines 625-627). -/
def modelLoop (script : Nat → ApiEvent) (primary : String)
    (timeout maxRetries : Nat) (initial_backoff : ℚ) :
    List String → Nat → CallTrace
  | [], _ =>
    ⟨[], [], .exception ("OpenAI API call failed: " ++ "All OpenAI models failed after retries")⟩
  | m :: ms, callIdx =>
    match attemptLoop script primary m timeout maxRetries initial_backoff callIdx 0 (maxRetries + 1) with
    | (cs, ss, some r) => ⟨cs, ss, r⟩
    | (cs, ss, none) =>
      match modelLoop script primary timeout maxRetries initial_backoff ms (callIdx + cs.length) with
      | ⟨cs2, ss2, r⟩ => ⟨cs ++ cs2, ss ++ ss2, r⟩

/-- Embeds `call_openai_api(client, prompt, model, timeout, max_retries,
initial_backoff)` (lines 421-627) as a function of the response script. -/
def call_openai_api (script : Nat → ApiEvent) (model : String)
    (timeout maxRetries : Nat) (initial_backoff : ℚ) : CallTrace :=
  modelLoop script model timeout maxRetries initial_backoff (models_to_try model) 0

/-!
Reconstruction properties of the section splitter. -/

theorem splitAtNL_eq : ∀ (l d tail : List Char), splitAtNL l = some (d, tail) →
    l = d ++ '\n' :: tail := by
  intro l
  induction l with
  | nil => intro d tail h; simp [splitAtNL] at h
  | cons c r ih =>
    intro d tail h
    rw [splitAtNL] at h
    split at h
    · rename_i hc
      simp only [Option.some.injEq, Prod.mk.injEq] at h
      rw [← h.1, ← h.2]
      simp [hc]
    · rename_i hc
      rcases hr : splitAtNL r with _ | ⟨d1, t1⟩
      · rw [hr] at h; simp at h
      · rw [hr] at h
        simp only [Option.map_some', Option.some.injEq, Prod.mk.injEq] at h
        rw [← h.1, ← h.2]
        simp [ih d1 t1 hr]

theorem tryMatch_eq : ∀ (n : Nat) (rest w d tail : List Char),
    tryMatch n rest = some (w, d, tail) →
    rest = w ++ d ++ '\n' :: tail ∧ w ≠ [] ∧ d ≠ [] := by
  intro n
  induction n with
  | zero => intro rest w d tail h; simp [tryMatch] at h
  | succ n ih =>
    intro rest w d tail h
    rw [tryMatch] at h
    split at h
    · rename_i d0 t0 hs
      split at h
      · exact ih rest w d tail h
      · rename_i hd0
        simp only [Option.some.injEq, Prod.mk.injEq] at h
        obtain ⟨hw, hd, ht⟩ := h
        have hrest : rest.drop (n + 1) = d0 ++ '\n' :: t0 := splitAtNL_eq _ _ _ hs
        have hne : rest ≠ [] := by
          intro he; rw [he] at hs; simp [splitAtNL] at hs
        refine ⟨?_, ?_, ?_⟩
        · rw [← hw, ← hd, ← ht]
          conv_lhs => rw [(List.take_append_drop (n + 1) rest).symm]
          rw [hrest]
          simp [List.append_assoc]
        · rw [← hw]
          intro hnil
          rcases List.take_eq_nil_iff.mp hnil with h1 | h1
          · omega
          · exact hne h1
        · rw [← hd]; exact hd0
    · rename_i hs
      exact ih rest w d tail h

theorem matchWS_eq (rest w d tail : List Char) (h : matchWS rest = some (w, d, tail)) :
    rest = w ++ d ++ '\n' :: tail ∧ w ≠ [] ∧ d ≠ [] :=
  tryMatch_eq _ rest w d tail h

theorem findSplit_eq (marker : List Char) :
    ∀ (t pre h tl : List Char), findSplit marker t = some (pre, h, tl) →
    t = pre ++ '\n' :: (h ++ '\n' :: tl) := by
  intro t
  induction t with
  | nil => intro pre h tl hf; simp [findSplit] at hf
  | cons c rest ih =>
    intro pre h tl hf
    rw [findSplit] at hf
    by_cases hc : (c = '\n' && rest.take marker.length == marker) = true
    · rw [if_pos hc] at hf
      simp only [Bool.and_eq_true, decide_eq_true_eq, beq_iff_eq] at hc
      rcases hm : matchWS (rest.drop marker.length) with _ | ⟨w, d, tail⟩
      · rw [hm] at hf
        rcases hrec : findSplit marker rest with _ | ⟨pre1, h1, tl1⟩
        · rw [hrec] at hf; exact absurd hf (by simp)
        · rw [hrec] at hf
          simp only [Option.some.injEq, Prod.mk.injEq] at hf
          rcases hf with ⟨hpre, hh, htl⟩
          subst hpre; subst hh; subst htl
          simp [ih pre1 h1 tl1 hrec]
      · rw [hm] at hf
        simp only [Option.some.injEq, Prod.mk.injEq] at hf
        rcases hf with ⟨hpre, hh, htl⟩
        have hdecomp := matchWS_eq _ _ _ _ hm
        subst hpre; subst hh; subst htl
        have : rest = marker ++ rest.drop marker.length := by
          conv_lhs => rw [(List.take_append_drop marker.length rest).symm]
          rw [hc.2]
        rw [hc.1]
        simp only [List.nil_append]
        rw [this, hdecomp.1]
        simp
    · rw [if_neg hc] at hf
      rcases hrec : findSplit marker rest with _ | ⟨pre1, h1, tl1⟩
      · rw [hrec] at hf; exact absurd hf (by simp)
      · rw [hrec] at hf
        simp only [Option.some.injEq, Prod.mk.injEq] at hf
        rcases hf with ⟨hpre, hh, htl⟩
        subst hpre; subst hh; subst htl
        simp [ih pre1 h1 tl1 hrec]

theorem splitByAux_rebuild (marker : List Char) :
    ∀ (n : Nat) (t : List Char), rebuild (splitByAux marker n t) = t := by
  intro n
  induction n with
  | zero => intro t; simp [splitByAux, rebuild]
  | succ n ih =>
    intro t
    rw [splitByAux]
    rcases hf : findSplit marker t with _ | ⟨pre, h, tail⟩
    · simp [rebuild]
    · have := findSplit_eq marker t pre h tail hf
      simp only [rebuild, ih tail]
      exact this.symm

theorem splitBy_rebuild (marker t : List Char) : rebuild (splitBy marker t) = t :=
  splitByAux_rebuild marker t.length t

theorem splitBy_of_none (marker t : List Char) (h : findSplit marker t = none) :
    splitBy marker t = [t] := by
  unfold splitBy
  cases hn : t.length with
  | zero => simp [splitByAux]
  | succ n => simp [splitByAux, h]

/-!
Newline-segment normalization lemmas. -/

theorem dropWhile_head_false (p : Char → Bool) :
    ∀ (l : List Char) (d : Char) (r : List Char), l.dropWhile p = d :: r → p d = false := by
  intro l
  induction l with
  | nil => intro d r h; simp [List.dropWhile] at h
  | cons c cs ih =>
    intro d r h
    rw [List.dropWhile] at h
    rcases hp : p c with _ | _
    · rw [hp] at h
      simp only [List.cons.injEq] at h
      rw [← h.1]; exact hp
    · rw [hp] at h
      exact ih d r h

theorem takeWhile_append_of_all (p : Char → Bool) :
    ∀ (a l : List Char), a.all p = true → (a ++ l).takeWhile p = a ++ l.takeWhile p := by
  intro a
  induction a with
  | nil => intro l _; simp
  | cons c cs ih =>
    intro l ha
    simp only [List.all_cons, Bool.and_eq_true] at ha
    simp [List.takeWhile, ha.1, ih l ha.2]

theorem dropWhile_append_of_all (p : Char → Bool) :
    ∀ (a l : List Char), a.all p = true → (a ++ l).dropWhile p = l.dropWhile p := by
  intro a
  induction a with
  | nil => intro l _; simp
  | cons c cs ih =>
    intro l ha
    simp only [List.all_cons, Bool.and_eq_true] at ha
    simp [List.dropWhile, ha.1, ih l ha.2]

theorem segs_nil : segs [] = [] := by simp [segs]

theorem segs_cons_nl (r : List Char) : segs ('\n' :: r) = segs r := by simp [segs]

theorem segs_append_nl : ∀ (a b : List Char), segs (a ++ '\n' :: b) = segs a ++ segs b := by
  have key : ∀ (n : Nat) (a : List Char), a.length ≤ n →
      ∀ b, segs (a ++ '\n' :: b) = segs a ++ segs b := by
    intro n
    induction n with
    | zero =>
      intro a ha b
      have : a = [] := List.length_eq_zero.mp (Nat.le_zero.mp ha)
      subst this
      simp [segs_cons_nl, segs_nil]
    | succ n ih =>
      intro a ha b
      match a with
      | [] => simp [segs_cons_nl, segs_nil]
      | c :: a' =>
        by_cases hc : c = '\n'
        · subst hc
          rw [List.cons_append, segs_cons_nl, segs_cons_nl]
          exact ih a' (by simpa using Nat.lt_succ_iff.mp (Nat.lt_of_lt_of_le (by simp) ha)) b
        · rcases hrest : a'.dropWhile notNL with _ | ⟨d, r'⟩
          · have hall : a'.all notNL = true := by
              have := List.takeWhile_append_dropWhile (p := notNL) (l := a')
              rw [hrest, List.append_nil] at this
              rw [← this]
              exact List.all_takeWhile
            have htw : a'.takeWhile notNL = a' := by
              have := List.takeWhile_append_dropWhile (p := notNL) (l := a')
              rw [hrest, List.append_nil] at this
              exact this
            rw [List.cons_append, segs, if_neg hc, segs, if_neg hc]
            rw [takeWhile_append_of_all notNL a' ('\n' :: b) hall]
            rw [dropWhile_append_of_all notNL a' ('\n' :: b) hall]
            rw [List.takeWhile_cons, List.dropWhile_cons]
            simp only [notNL, bne_self_eq_false, Bool.false_eq_true, if_false]
            rw [htw, hrest, segs_cons_nl, segs_nil]
            simp
          · have hd : d = '\n' := by
              have := dropWhile_head_false notNL a' d r' hrest
              simpa [notNL] using this
            subst hd
            have hsplit : a' = a'.takeWhile notNL ++ '\n' :: r' := by
              conv_lhs => rw [← List.takeWhile_append_dropWhile (p := notNL) (l := a')]
              rw [hrest]
            have hall : (a'.takeWhile notNL).all notNL = true := List.all_takeWhile
            have hr'len : r'.length + 1 ≤ n + 1 := by
              have h1 : a'.length = (a'.takeWhile notNL).length + 1 + r'.length := by
                conv_lhs => rw [hsplit]
                simp; omega
              have h2 : a'.length + 1 ≤ n + 1 := by simpa using ha
              omega
            rw [List.cons_append, segs, if_neg hc, segs, if_neg hc]
            conv_lhs => rw [hsplit]
            rw [List.append_assoc]
            rw [takeWhile_append_of_all notNL _ _ hall, dropWhile_append_of_all notNL _ _ hall]
            rw [List.cons_append, List.takeWhile_cons, List.dropWhile_cons]
            simp only [notNL, bne_self_eq_false, Bool.false_eq_true, if_false]
            rw [segs_cons_nl]
            rw [hrest, segs_cons_nl]
            rw [ih r' (by omega) b]
            simp [List.append_nil]
  intro a b
  exact key a.length a le_rfl b

theorem segs_append_nl2 (a b : List Char) :
    segs (a ++ '\n' :: '\n' :: b) = segs a ++ segs b := by
  rw [segs_append_nl a ('\n' :: b), segs_cons_nl]

theorem segs_rebuild : ∀ (ps : List (List Char)), segs (rebuild ps) = (ps.map segs).flatten
  | [] => by simp [rebuild, segs_nil]
  | [x] => by simp [rebuild]
  | x :: h :: r => by
    rw [rebuild, segs_append_nl x (h ++ '\n' :: rebuild r), segs_append_nl h (rebuild r)]
    rw [segs_rebuild r]
    simp

theorem segs_splitBy (marker t : List Char) :
    ((splitBy marker t).map segs).flatten = segs t := by
  rw [← segs_rebuild, splitBy_rebuild]

theorem segs_joinSep : ∀ (l : List (List Char)), segs (joinSep l) = (l.map segs).flatten
  | [] => by simp [joinSep, segs_nil]
  | [x] => by simp [joinSep]
  | x :: y :: r => by
    rw [joinSep, segs_append_nl2 x (joinSep (y :: r)), segs_joinSep (y :: r)]
    simp

theorem segs_pairUp : ∀ (l : List (List Char)),
    ((pairUp l).map segs).flatten = (l.map segs).flatten
  | [] => by simp [pairUp]
  | [x] => by simp [pairUp]
  | x :: y :: r => by
    rw [pairUp]
    simp only [List.map_cons, List.flatten_cons]
    rw [segs_append_nl x y, segs_pairUp r]
    simp [List.append_assoc]

theorem addPiece_segs (mt : Nat) (model : String) (piece cur : List Char) (curTok : Nat)
    (chunks : List (List Char)) :
    ((addPiece mt model piece cur curTok chunks).2.2.map segs).flatten ++
      segs (addPiece mt model piece cur curTok chunks).1 =
    (chunks.map segs).flatten ++ segs cur ++ segs piece := by
  by_cases hcur : cur = []
  · subst hcur
    simp only [addPiece]
    rw [if_neg (by simp)]
    simp [segs_nil]
  · simp only [addPiece]
    by_cases hov : curTok + estimate_tokens piece model > mt
    · rw [if_pos (by simp [hov, hcur])]
      simp [List.map_append, List.flatten_append, List.append_assoc]
    · rw [if_neg (by simp [hov])]
      rw [if_neg hcur]
      simp [segs_append_nl2, List.append_assoc]

theorem feedAll_segs (mt : Nat) (model : String) :
    ∀ (us : List (List Char)) (cur : List Char) (curTok : Nat) (chunks : List (List Char)),
    ((feedAll mt model us cur curTok chunks).2.2.map segs).flatten ++
      segs (feedAll mt model us cur curTok chunks).1 =
    (chunks.map segs).flatten ++ segs cur ++ (us.map segs).flatten
  | [], cur, curTok, chunks => by simp [feedAll]
  | u :: us, cur, curTok, chunks => by
    rw [feedAll]
    rcases hap : addPiece mt model u cur curTok chunks with ⟨c1, t1, h1⟩
    have h := addPiece_segs mt model u cur curTok chunks
    rw [hap] at h
    dsimp only at h ⊢
    rw [feedAll_segs mt model us c1 t1 h1, h]
    simp [List.append_assoc]

theorem processSections_segs (mt : Nat) (model : String) :
    ∀ (secs : List (List Char)) (cur : List Char) (curTok : Nat) (chunks : List (List Char)),
    ((processSections mt model secs cur curTok chunks).map segs).flatten =
    (chunks.map segs).flatten ++ segs cur ++ (secs.map segs).flatten
  | [], cur, curTok, chunks => by
    rw [processSections]
    by_cases hcur : cur = []
    · subst hcur; simp [segs_nil]
    · rw [if_neg hcur]; simp [List.append_assoc]
  | [sec], cur, curTok, chunks => by
    simp only [processSections]
    by_cases hsec : sec.take 2 = hh2
    · rw [if_pos hsec]
      rcases hap : addPiece mt model sec cur curTok chunks with ⟨c1, t1, h1⟩
      have h := addPiece_segs mt model sec cur curTok chunks
      rw [hap] at h
      dsimp only at h ⊢
      by_cases hc1 : c1 = []
      · subst hc1
        rw [if_pos rfl]
        rw [segs_nil, List.append_nil] at h
        simp [h, List.append_assoc]
      · rw [if_neg hc1]
        rw [List.map_append, List.flatten_append]
        simp only [List.map_cons, List.map_nil, List.flatten_cons, List.flatten_nil,
          List.append_nil]
        rw [h]
    · rw [if_neg hsec]
      rcases hap : addPiece mt model sec cur curTok chunks with ⟨c1, t1, h1⟩
      have h := addPiece_segs mt model sec cur curTok chunks
      rw [hap] at h
      dsimp only at h ⊢
      by_cases hc1 : c1 = []
      · subst hc1
        rw [if_pos rfl]
        rw [segs_nil, List.append_nil] at h
        simp [h, List.append_assoc]
      · rw [if_neg hc1]
        rw [List.map_append, List.flatten_append]
        simp only [List.map_cons, List.map_nil, List.flatten_cons, List.flatten_nil,
          List.append_nil]
        rw [h]
  | sec :: next :: rest2, cur, curTok, chunks => by
    simp only [processSections]
    by_cases hsec : sec.take 2 = hh2
    · rw [if_pos hsec]
      by_cases hov : estimate_tokens (sec ++ '\n' :: next) model > mt
      · rw [if_pos hov]
        rcases hfa : feedAll mt model (pairUp (splitBy hh3 (sec ++ '\n' :: next))) cur curTok chunks
          with ⟨c1, t1, h1⟩
        have h := feedAll_segs mt model (pairUp (splitBy hh3 (sec ++ '\n' :: next))) cur curTok chunks
        rw [hfa] at h
        dsimp only at h ⊢
        rw [processSections_segs mt model rest2 c1 t1 h1, h]
        rw [segs_pairUp, segs_splitBy, segs_append_nl sec next]
        simp [List.append_assoc]
      · rw [if_neg hov]
        rcases hap : addPiece mt model (sec ++ '\n' :: next) cur curTok chunks with ⟨c1, t1, h1⟩
        have h := addPiece_segs mt model (sec ++ '\n' :: next) cur curTok chunks
        rw [hap] at h
        dsimp only at h ⊢
        rw [processSections_segs mt model rest2 c1 t1 h1, h]
        rw [segs_append_nl sec next]
        simp [List.append_assoc]
    · rw [if_neg hsec]
      rcases hap : addPiece mt model sec cur curTok chunks with ⟨c1, t1, h1⟩
      have h := addPiece_segs mt model sec cur curTok chunks
      rw [hap] at h
      dsimp only at h ⊢
      rw [processSections_segs mt model (next :: rest2) c1 t1 h1, h]
      simp [List.append_assoc]
termination_by secs => secs.length

theorem chunk_segs (t : List Char) (mt : Nat) (model : String) :
    segs (joinSep (chunk_discovery_content t mt model)) = segs t := by
  unfold chunk_discovery_content
  rcases hp : processSections mt model (splitBy hh2 t) [] 0 [] with _ | ⟨c, cs⟩
  · simp [joinSep]
  · rw [if_neg (by simp)]
    have h := processSections_segs mt model (splitBy hh2 t) [] 0 []
    rw [hp] at h
    rw [segs_joinSep, h]
    simp [segs_nil, segs_splitBy]

theorem chunk_ne_nil (t : List Char) (mt : Nat) (model : String) :
    chunk_discovery_content t mt model ≠ [] := by
  unfold chunk_discovery_content
  rcases hp : processSections mt model (splitBy hh2 t) [] 0 [] with _ | ⟨c, cs⟩
  · simp
  · rw [if_neg (by simp)]
    simp

/-!
Bounds used to show a within-budget input never flushes a second chunk. -/

theorem rebuild_len_cons : ∀ (r : List (List Char)) (y : List Char),
    (rebuild (y :: r)).length ≤ y.length + 2 + (rebuild r).length ∧
    y.length + (rebuild r).length ≤ (rebuild (y :: r)).length
  | [], y => by simp [rebuild]
  | z :: r2, y => by
    have ih := rebuild_len_cons r2 z
    constructor
    · rw [rebuild]
      simp only [List.length_append, List.length_cons]
      have h2 := ih.2
      omega
    · rw [rebuild]
      simp only [List.length_append, List.length_cons]
      have h1 := ih.1
      omega

theorem div4_superadd (a b : Nat) : a / 4 + b / 4 ≤ (a + b) / 4 := by
  rw [Nat.le_div_iff_mul_le (by norm_num : 0 < 4)]
  have ha := Nat.div_mul_le_self a 4
  have hb := Nat.div_mul_le_self b 4
  omega

theorem unitTokSum_le : ∀ (ps : List (List Char)) (model : String),
    unitTokSum model ps ≤ estimate_tokens (rebuild ps) model
  | [], model => by simp [unitTokSum, rebuild, estimate_tokens]
  | [x], model => by
    rw [unitTokSum]
    by_cases hsec : x.take 2 = hh2
    · rw [if_pos hsec]; simp [rebuild]
    · rw [if_neg hsec]; simp [unitTokSum, rebuild]
  | x :: y :: r, model => by
    rw [unitTokSum]
    by_cases hsec : x.take 2 = hh2
    · rw [if_pos hsec]
      have ih := unitTokSum_le r model
      simp only [estimate_tokens] at ih ⊢
      have hlen : (rebuild (x :: y :: r)).length =
          x.length + 1 + (y.length + 1 + (rebuild r).length) := by
        rw [rebuild]; simp [List.length_append]; omega
      rw [hlen]
      have h1 : (x ++ '\n' :: y).length = x.length + 1 + y.length := by
        simp [List.length_append]; omega
      rw [h1]
      have h2 := div4_superadd (x.length + 1 + y.length) (rebuild r).length
      have h3 : (x.length + 1 + y.length + (rebuild r).length) / 4 ≤
          (x.length + 1 + (y.length + 1 + (rebuild r).length)) / 4 :=
        Nat.div_le_div_right (by omega)
      omega
    · rw [if_neg hsec]
      have ih := unitTokSum_le (y :: r) model
      simp only [estimate_tokens] at ih ⊢
      have h2 := div4_superadd x.length (rebuild (y :: r)).length
      have h3 : x.length + (rebuild (y :: r)).length ≤ (rebuild (x :: y :: r)).length := by
        have hm := (rebuild_len_cons (y :: r) x).2
        omega
      have h4 : (x.length + (rebuild (y :: r)).length) / 4 ≤ (rebuild (x :: y :: r)).length / 4 :=
        Nat.div_le_div_right h3
      omega

theorem processSections_noflush (b : Nat) (model : String) :
    ∀ (secs : List (List Char)) (cur : List Char) (curTok : Nat),
    curTok + unitTokSum model secs ≤ b →
    processSections b model secs cur curTok [] = [] ∨
    ∃ c, processSections b model secs cur curTok [] = [c]
  | [], cur, curTok, _ => by
    rw [processSections]
    by_cases hcur : cur = []
    · left; rw [if_pos hcur]
    · right; exact ⟨cur, by rw [if_neg hcur]; simp⟩
  | [sec], cur, curTok, hb => by
    rw [unitTokSum] at hb
    simp only [processSections]
    by_cases hsec : sec.take 2 = hh2
    · rw [if_pos hsec] at hb ⊢
      have hnof : (decide (curTok + estimate_tokens sec model > b) && (cur != [])) = false := by
        simp only [Bool.and_eq_false_iff]
        left
        simp only [decide_eq_false_iff_not]
        omega
      simp only [addPiece, hnof, Bool.false_eq_true, if_false]
      by_cases hc : (if cur = [] then sec else cur ++ '\n' :: '\n' :: sec) = []
      · left; rw [if_pos hc]
      · right
        refine ⟨if cur = [] then sec else cur ++ '\n' :: '\n' :: sec, ?_⟩
        rw [if_neg hc]
        simp
    · rw [if_neg hsec] at hb ⊢
      have hnof : (decide (curTok + estimate_tokens sec model > b) && (cur != [])) = false := by
        simp only [Bool.and_eq_false_iff]
        left
        simp only [decide_eq_false_iff_not]
        omega
      simp only [addPiece, hnof, Bool.false_eq_true, if_false]
      by_cases hc : (if cur = [] then sec else cur ++ '\n' :: '\n' :: sec) = []
      · left; rw [if_pos hc]
      · right
        refine ⟨if cur = [] then sec else cur ++ '\n' :: '\n' :: sec, ?_⟩
        rw [if_neg hc]
        simp
  | sec :: next :: rest2, cur, curTok, hb => by
    rw [unitTokSum] at hb
    simp only [processSections]
    by_cases hsec : sec.take 2 = hh2
    · rw [if_pos hsec] at hb ⊢
      have hov : ¬ (estimate_tokens (sec ++ '\n' :: next) model > b) := by omega
      rw [if_neg hov]
      have hnof : (decide (curTok + estimate_tokens (sec ++ '\n' :: next) model > b) &&
          (cur != [])) = false := by
        simp only [Bool.and_eq_false_iff]
        left
        simp only [decide_eq_false_iff_not]
        omega
      simp only [addPiece, hnof, Bool.false_eq_true, if_false]
      exact processSections_noflush b model rest2 _ _ (by omega)
    · rw [if_neg hsec] at hb ⊢
      have hnof : (decide (curTok + estimate_tokens sec model > b) && (cur != [])) = false := by
        simp only [Bool.and_eq_false_iff]
        left
        simp only [decide_eq_false_iff_not]
        omega
      simp only [addPiece, hnof, Bool.false_eq_true, if_false]
      exact processSections_noflush b model (next :: rest2) _ _ (by omega)
termination_by secs => secs.length

theorem chunk_single (t : List Char) (b : Nat) (model : String)
    (h : estimate_tokens t model ≤ b) :
    (chunk_discovery_content t b model).length = 1 := by
  have hsum : unitTokSum model (splitBy hh2 t) ≤ b := by
    have h1 := unitTokSum_le (splitBy hh2 t) model
    rw [splitBy_rebuild] at h1
    omega
  rcases processSections_noflush b model (splitBy hh2 t) [] 0 (by omega) with h0 | ⟨c, hc⟩
  · unfold chunk_discovery_content
    rw [h0]
    simp
  · unfold chunk_discovery_content
    rw [hc]
    rw [if_neg (by simp)]
    simp

theorem chunk_of_none (t : List Char) (b : Nat) (model : String)
    (h : findSplit hh2 t = none) :
    chunk_discovery_content t b model = [t] := by
  unfold chunk_discovery_content
  rw [splitBy_of_none hh2 t h]
  have haux : processSections b model [t] [] 0 [] = if t = [] then [] else [t] := by
    simp only [processSections, addPiece]
    by_cases hsec : t.take 2 = hh2
    · rw [if_pos hsec]
      simp
    · rw [if_neg hsec]
      simp
  rw [haux]
  by_cases ht : t = []
  · rw [if_pos ht]
    simp [ht]
  · rw [if_neg ht]
    rw [if_neg (by simp)]

/-!
Orchestrator lemmas. -/

theorem attemptLoop_auth (script : Nat → ApiEvent) (primary m : String)
    (timeout maxRetries : Nat) (backoff : ℚ) (callIdx : Nat) (msg : String)
    (hev : script callIdx = ApiEvent.apiError msg) (hauth : isAuthMsg msg = true) :
    attemptLoop script primary m timeout maxRetries backoff callIdx 0 (maxRetries + 1) =
      ([m], [], some (CallResult.valueError
        ("Invalid OpenAI API key. Please check your OPENAI_API_KEY environment variable."))) := by
  rw [attemptLoop, hev]
  simp [classify, hauth]

theorem attemptLoop_rl (script : Nat → ApiEvent) (primary m : String)
    (timeout maxRetries : Nat) (backoff : ℚ)
    (hs : ∀ i, script i = ApiEvent.rateLimitError) :
    ∀ (rem attempt callIdx : Nat), attempt + rem = maxRetries + 1 → 1 ≤ rem →
    ∃ ss r, attemptLoop script primary m timeout maxRetries backoff callIdx attempt rem =
      (List.replicate rem m, ss, r) ∧
      (hasFallback primary m = true → r = none) ∧
      (hasFallback primary m = false → ∃ emsg, r = some (CallResult.exception emsg))
  | 0, attempt, callIdx => fun _ hrem => by omega
  | rem + 1, attempt, callIdx => fun hsum _ => by
    rw [attemptLoop, hs callIdx]
    by_cases hlt : attempt < maxRetries
    · rcases attemptLoop_rl script primary m timeout maxRetries backoff hs rem (attempt + 1)
        (callIdx + 1) (by omega) (by omega) with ⟨ss, r, heq, hcond⟩
      simp only [classify, if_pos hlt]
      rw [heq]
      exact ⟨backoff * 2 ^ attempt :: ss, r, by simp [List.replicate], hcond⟩
    · have hrem : rem = 0 := by omega
      subst hrem
      simp only [classify, if_neg hlt]
      by_cases hf : hasFallback primary m = true
      · rw [if_pos hf]
        exact ⟨[], none, by simp [List.replicate], fun _ => rfl, fun hc => absurd hf (by simp [hc])⟩
      · rw [if_neg hf]
        exact ⟨[], _, rfl, fun ht => absurd ht hf, fun _ => ⟨_, rfl⟩⟩

theorem call_openai_api_auth (script : Nat → ApiEvent) (primary : String)
    (timeout maxRetries : Nat) (backoff : ℚ) (msg : String)
    (hev : script 0 = ApiEvent.apiError msg) (hauth : isAuthMsg msg = true) :
    call_openai_api script primary timeout maxRetries backoff =
      ⟨[primary], [], CallResult.valueError
        ("Invalid OpenAI API key. Please check your OPENAI_API_KEY environment variable.")⟩ := by
  unfold call_openai_api
  have hstep := attemptLoop_auth script primary primary timeout maxRetries backoff 0 msg hev hauth
  by_cases hp : primary = "gpt-4"
  · subst hp
    rw [show models_to_try ("gpt-4") = ["gpt-4", "gpt-3.5-turbo"] from by simp [models_to_try]]
    simp only [modelLoop]
    rw [hstep]
  · rw [show models_to_try primary = [primary] from by simp [models_to_try, hp]]
    simp only [modelLoop]
    rw [hstep]

theorem call_openai_api_rl (script : Nat → ApiEvent) (timeout maxRetries : Nat) (backoff : ℚ)
    (hs : ∀ i, script i = ApiEvent.rateLimitError) :
    ∃ ss res, call_openai_api script ("gpt-4") timeout maxRetries backoff =
      ⟨List.replicate (maxRetries + 1) ("gpt-4") ++ List.replicate (maxRetries + 1) ("gpt-3.5-turbo"),
        ss, res⟩ := by
  unfold call_openai_api
  rw [show models_to_try ("gpt-4") = ["gpt-4", "gpt-3.5-turbo"] from by simp [models_to_try]]
  rcases attemptLoop_rl script ("gpt-4") ("gpt-4") timeout maxRetries backoff hs (maxRetries + 1) 0 0
    (by omega) (by omega) with ⟨ss1, r1, heq1, hc1, _⟩
  have hr1 : r1 = none := hc1 rfl
  rcases attemptLoop_rl script ("gpt-4") ("gpt-3.5-turbo") timeout maxRetries backoff hs
    (maxRetries + 1) 0 (0 + (List.replicate (maxRetries + 1) "gpt-4").length)
    (by omega) (by omega) with ⟨ss2, r2, heq2, _, hc2⟩
  rcases hc2 rfl with ⟨emsg, hr2⟩
  simp only [modelLoop]
  rw [heq1, hr1]
  simp only [modelLoop]
  rw [heq2, hr2]
  exact ⟨ss1 ++ ss2, CallResult.exception emsg, rfl⟩

/-!
Claim theorems. -/

set_option maxRecDepth 8000

/-- C1: the claim says a structurally valid response whose first choice has
non-empty, non-whitespace text makes `call_openai_api` terminate at that
attempt and return that text.  Evaluating the embedding at such a script
shows the opposite: with `maxRetries = 0` and a valid response on every
attempt, both models are exhausted and the call raises
"All OpenAI models failed after retries"; no input ever produces an `ok`
result, because the `return generated_content` at line 493 sits inside the
whitespace-check branch after its `raise` (and the mis-indented validation
block makes the file a Python `SyntaxError` at line 478). -/
theorem C1_success_never_returned :
    call_openai_api (fun _ => ApiEvent.response [some ("Generated guide content")])
        ("gpt-4") 120 0 1 =
      ⟨["gpt-4", "gpt-3.5-turbo"], [],
        CallResult.exception ("OpenAI API call failed: All OpenAI models failed after retries")⟩ ∧
    ∀ content : String,
      (call_openai_api (fun _ => ApiEvent.response [some ("Generated guide content")])
        ("gpt-4") 120 0 1).result ≠ CallResult.ok content := by
  refine ⟨rfl, fun content h => ?_⟩
  rw [show (call_openai_api (fun _ => ApiEvent.response [some ("Generated guide content")])
    ("gpt-4") 120 0 1).result =
    CallResult.exception ("OpenAI API call failed: All OpenAI models failed after retries")
    from rfl] at h
  exact CallResult.noConfusion h

/-- C2: when the first attempt fails with an authentication-classified
`APIError`, `call_openai_api` makes exactly one attempt — no retry, no
backoff sleep, no model fallback — and raises the terminal `ValueError`
"Invalid OpenAI API key...", regardless of `maxRetries`. -/
theorem C2_auth_single_attempt (script : Nat → ApiEvent) (primary : String)
    (timeout maxRetries : Nat) (backoff : ℚ) (msg : String)
    (hev : script 0 = ApiEvent.apiError msg) (hauth : isAuthMsg msg = true) :
    (call_openai_api script primary timeout maxRetries backoff).calls = [primary] ∧
    (call_openai_api script primary timeout maxRetries backoff).sleeps = [] ∧
    (call_openai_api script primary timeout maxRetries backoff).result =
      CallResult.valueError
        ("Invalid OpenAI API key. Please check your OPENAI_API_KEY environment variable.") := by
  rw [call_openai_api_auth script primary timeout maxRetries backoff msg hev hauth]
  exact ⟨rfl, rfl, rfl⟩

/-- Witness for C2 at a concrete script and `maxRetries = 3`. -/
theorem C2_auth_single_attempt_witness :
    ((fun _ => ApiEvent.apiError ("Invalid Authentication")) 0 =
      ApiEvent.apiError ("Invalid Authentication")) ∧
    isAuthMsg ("Invalid Authentication") = true ∧
    (call_openai_api (fun _ => ApiEvent.apiError ("Invalid Authentication"))
        ("gpt-4") 120 3 1).calls = ["gpt-4"] ∧
    (call_openai_api (fun _ => ApiEvent.apiError ("Invalid Authentication"))
        ("gpt-4") 120 3 1).sleeps = [] :=
  ⟨rfl, by decide,
    (C2_auth_single_attempt (fun _ => ApiEvent.apiError ("Invalid Authentication"))
      ("gpt-4") 120 3 1 ("Invalid Authentication") rfl (by decide)).1,
    (C2_auth_single_attempt (fun _ => ApiEvent.apiError ("Invalid Authentication"))
      ("gpt-4") 120 3 1 ("Invalid Authentication") rfl (by decide)).2.1⟩

/-- C3: the claim says a transient failure followed by a successful response
with `maxRetries = 1` succeeds on the second attempt after exactly one
backoff sleep of `initialBackoff * 2 ^ 0`.  Evaluating the embedding at that
script shows the backoff sleep does occur, but the successful second attempt
does not return: the orchestrator goes on to exhaust both models and raises
"All OpenAI models failed after retries" (dead `return`, line 493). -/
theorem C3_retry_then_success_not_returned :
    call_openai_api
        (fun n => match n with
          | 0 => ApiEvent.rateLimitError
          | _ + 1 => ApiEvent.response [some ("Success after retry")])
        ("gpt-4") 120 1 1 =
      ⟨["gpt-4", "gpt-4", "gpt-3.5-turbo", "gpt-3.5-turbo"], [1 * 2 ^ 0],
        CallResult.exception ("OpenAI API call failed: All OpenAI models failed after retries")⟩ ∧
    ((1 : ℚ) * 2 ^ 0) = 1 ∧
    ∀ content : String,
      (call_openai_api
        (fun n => match n with
          | 0 => ApiEvent.rateLimitError
          | _ + 1 => ApiEvent.response [some ("Success after retry")])
        ("gpt-4") 120 1 1).result ≠ CallResult.ok content := by
  refine ⟨rfl, by norm_num, fun content h => ?_⟩
  rw [show (call_openai_api
    (fun n => match n with
      | 0 => ApiEvent.rateLimitError
      | _ + 1 => ApiEvent.response [some ("Success after retry")])
    ("gpt-4") 120 1 1).result =
    CallResult.exception ("OpenAI API call failed: All OpenAI models failed after retries")
    from rfl] at h
  exact CallResult.noConfusion h

/-- C4: the candidate model list is `[primary]` when the primary is not the
premium "gpt-4" tier and `["gpt-4", "gpt-3.5-turbo"]` when it is; under
persistent transient (rate-limit) failures the premium model is attempted
exactly `maxRetries + 1` times and the fallback model is then attempted
`maxRetries + 1` further times with the attempt counter reset. -/
theorem C4_model_fallback (script : Nat → ApiEvent) (timeout maxRetries : Nat) (backoff : ℚ)
    (hs : ∀ i, script i = ApiEvent.rateLimitError) :
    models_to_try ("gpt-4") = ["gpt-4", "gpt-3.5-turbo"] ∧
    (∀ m : String, m ≠ "gpt-4" → models_to_try m = [m]) ∧
    ∃ ss res, call_openai_api script ("gpt-4") timeout maxRetries backoff =
      ⟨List.replicate (maxRetries + 1) ("gpt-4") ++ List.replicate (maxRetries + 1) ("gpt-3.5-turbo"),
        ss, res⟩ := by
  refine ⟨by simp [models_to_try], fun m hm => by simp [models_to_try, hm], ?_⟩
  exact call_openai_api_rl script timeout maxRetries backoff hs

/-- Witness for C4 at the constant rate-limit script and `maxRetries = 2`. -/
theorem C4_model_fallback_witness :
    (∀ i : Nat, (fun _ => ApiEvent.rateLimitError) i = ApiEvent.rateLimitError) ∧
    models_to_try ("gpt-4") = ["gpt-4", "gpt-3.5-turbo"] ∧
    (∀ m : String, m ≠ "gpt-4" → models_to_try m = [m]) ∧
    ∃ ss res, call_openai_api (fun _ => ApiEvent.rateLimitError) ("gpt-4") 120 2 1 =
      ⟨List.replicate 3 ("gpt-4") ++ List.replicate 3 ("gpt-3.5-turbo"), ss, res⟩ :=
  ⟨fun _ => rfl,
    (C4_model_fallback (fun _ => ApiEvent.rateLimitError) 120 2 1 (fun _ => rfl)).1,
    (C4_model_fallback (fun _ => ApiEvent.rateLimitError) 120 2 1 (fun _ => rfl)).2.1,
    (C4_model_fallback (fun _ => ApiEvent.rateLimitError) 120 2 1 (fun _ => rfl)).2.2⟩

/-- C5: `estimate_tokens` is total (never raises), returns the non-negative
heuristic count `length / 4` rounded down, and yields 0 on empty text. -/
theorem C5_estimate_tokens_contract (t : List Char) (model : String) :
    estimate_tokens t model = t.length / 4 ∧
    estimate_tokens [] model = 0 ∧
    0 ≤ estimate_tokens t model :=
  ⟨rfl, rfl, Nat.zero_le _⟩

/-- C6: `check_token_limit` returns `(exceeds, tokens, limit)` with
`tokens = estimate_tokens text model`, `limit` the table entry for the model
name (unknown names fall back to the default gpt-4 profile's 7000), and
`exceeds` true iff `tokens > limit`; concretely "short text" with "gpt-4"
yields `exceeds = false` and `limit = 7000`. -/
theorem C6_check_token_limit_contract :
    (∀ (text : List Char) (platform model : String),
      check_token_limit text platform model =
        (decide (estimate_tokens text model > lookupLimit model),
         estimate_tokens text model, lookupLimit model)) ∧
    lookupLimit ("gpt-4") = 7000 ∧
    lookupLimit ("gpt-4-turbo") = 100000 ∧
    lookupLimit ("gpt-3.5-turbo") = 14000 ∧
    (∀ model : String, model ≠ "gpt-4" → model ≠ "gpt-4-turbo" → model ≠ "gpt-3.5-turbo" →
      lookupLimit model = 7000) ∧
    check_token_limit (("short text").data) ("gpt-4") ("gpt-4") = (false, 2, 7000) := by
  refine ⟨fun text platform model => rfl, rfl, rfl, rfl, ?_, by decide⟩
  intro model h1 h2 h3
  have e1 : (model == "gpt-4") = false := beq_eq_false_iff_ne.mpr h1
  have e2 : (model == "gpt-4-turbo") = false := beq_eq_false_iff_ne.mpr h2
  have e3 : (model == "gpt-3.5-turbo") = false := beq_eq_false_iff_ne.mpr h3
  simp [lookupLimit, MODEL_TOKEN_LIMITS, List.lookup, e1, e2, e3]

/-- Witness for C6 at the unknown model name "claude". -/
theorem C6_check_token_limit_contract_witness :
    ("claude" : String) ≠ "gpt-4" ∧ lookupLimit ("claude") = 7000 ∧
    check_token_limit (("short text").data) ("gpt-4") ("gpt-4") = (false, 2, 7000) :=
  ⟨by decide,
    C6_check_token_limit_contract.2.2.2.2.1 ("claude") (by decide) (by decide) (by decide),
    C6_check_token_limit_contract.2.2.2.2.2⟩

/-- C7 counterexample: the text "a\n## B x\nc" estimates well within a
budget of 1000, yet `chunk_discovery_content` returns the single chunk
"a\n\n## B x\nc", not the input itself: the newline before the matched
heading is rewritten to a blank line, so `chunk(t, b) = [t]` fails. -/
theorem C7_single_chunk_counterexample :
    estimate_tokens (("a\n## B x\nc").data) ("gpt-4") ≤ 1000 ∧
    chunk_discovery_content (("a\n## B x\nc").data) 1000 ("gpt-4") =
      [("a\n\n## B x\nc").data] ∧
    chunk_discovery_content (("a\n## B x\nc").data) 1000 ("gpt-4") ≠
      [("a\n## B x\nc").data] := by
  refine ⟨by decide, by decide, by decide⟩

/-- C7 amended: for every text whose estimate is within the budget the
chunker returns exactly one chunk; that chunk carries the text's
newline-free segments unchanged and in order (so content is preserved up to
newline normalization at matched heading boundaries), and it equals the
input verbatim whenever the major-heading split pattern does not occur. -/
theorem C7_single_chunk_amended (t : List Char) (b : Nat) (model : String)
    (h : estimate_tokens t model ≤ b) :
    (chunk_discovery_content t b model).length = 1 ∧
    segs (joinSep (chunk_discovery_content t b model)) = segs t ∧
    (findSplit hh2 t = none → chunk_discovery_content t b model = [t]) :=
  ⟨chunk_single t b model h, chunk_segs t b model, fun hn => chunk_of_none t b model hn⟩

/-- Witness for C7 amended at the pattern-containing input of the
counterexample. -/
theorem C7_single_chunk_amended_witness :
    estimate_tokens (("a\n## B x\nc").data) ("gpt-4") ≤ 1000 ∧
    (chunk_discovery_content (("a\n## B x\nc").data) 1000 ("gpt-4")).length = 1 :=
  ⟨by decide,
    (C7_single_chunk_amended (("a\n## B x\nc").data) 1000 ("gpt-4") (by decide)).1⟩

/-- C8: for every text and budget the chunker returns a non-empty chunk
list, and joining the chunks with the double-newline separator reproduces
exactly the original text's newline-free segments in their original order —
no text or structural marker is truncated, dropped or reordered; only
newline separator whitespace at boundaries is normalized. -/
theorem C8_chunk_lossless (t : List Char) (b : Nat) (model : String) :
    chunk_discovery_content t b model ≠ [] ∧
    segs (joinSep (chunk_discovery_content t b model)) = segs t :=
  ⟨chunk_ne_nil t b model, chunk_segs t b model⟩

/-- C9 counterexample: a document that starts directly with its first `##`
heading, two sections each within the budget of 3 tokens, combined above
it.  The split pattern only matches the second heading (it needs a
preceding newline), so the first chunk is the whole first section PLUS the
second section's heading line, and the second chunk is the second section's
body without its heading — not one chunk per section as claimed. -/
theorem C9_two_sections_counterexample :
    estimate_tokens (("## A x\naaaaaa").data) ("gpt-4") ≤ 3 ∧
    estimate_tokens (("## B y\nbbbbbb").data) ("gpt-4") ≤ 3 ∧
    estimate_tokens (("## A x\naaaaaa\n## B y\nbbbbbb").data) ("gpt-4") > 3 ∧
    chunk_discovery_content (("## A x\naaaaaa\n## B y\nbbbbbb").data) 3 ("gpt-4") =
      [("## A x\naaaaaa\n## B y").data, ("bbbbbb").data] ∧
    chunk_discovery_content (("## A x\naaaaaa\n## B y\nbbbbbb").data) 3 ("gpt-4") ≠
      [("## A x\naaaaaa").data, ("## B y\nbbbbbb").data] := by
  refine ⟨by decide, by decide, by decide, by decide, by decide⟩

/-- C9 amended: when the first `##` heading is preceded by a newline (here
the document starts with one), a two-section document whose sections are
each within the budget while their combination exceeds it yields exactly 2
chunks, one per section (heading attached to its content). -/
theorem C9_two_sections_amended :
    estimate_tokens (("## A x\naaaaaaaaaaaaaaaaaaaaaaaaaaaa").data) ("gpt-4") ≤ 8 ∧
    estimate_tokens (("## B y\nbbbbbbbbbbbbbbbbbbbbbbbbbbbb").data) ("gpt-4") ≤ 8 ∧
    estimate_tokens
      (("\n## A x\naaaaaaaaaaaaaaaaaaaaaaaaaaaa\n## B y\nbbbbbbbbbbbbbbbbbbbbbbbbbbbb").data)
      ("gpt-4") > 8 ∧
    chunk_discovery_content
      (("\n## A x\naaaaaaaaaaaaaaaaaaaaaaaaaaaa\n## B y\nbbbbbbbbbbbbbbbbbbbbbbbbbbbb").data)
      8 ("gpt-4") =
      [("## A x\naaaaaaaaaaaaaaaaaaaaaaaaaaaa").data,
       ("## B y\nbbbbbbbbbbbbbbbbbbbbbbbbbbbb").data] := by
  refine ⟨by decide, by decide, by decide, by decide⟩

/-- C10: when the major-heading split pattern (a `##` heading line both
preceded and followed by a newline) does not occur in the text — text
beginning with `##` but with no later matched heading, text with no
headings, the empty string — the chunker returns the input verbatim as a
single chunk, for every budget, even one the estimate exceeds; no
paragraph-level splitting is applied to markerless text. -/
theorem C10_no_marker_identity (t : List Char) (b : Nat) (model : String)
    (h : findSplit hh2 t = none) :
    chunk_discovery_content t b model = [t] :=
  chunk_of_none t b model h

/-- Witness for C10: a text that starts with `##`, has no later matched
heading, and exceeds the budget 0, is returned verbatim; likewise the empty
string. -/
theorem C10_no_marker_identity_witness :
    findSplit hh2 (("## Title\nbody with no later heading").data) = none ∧
    estimate_tokens (("## Title\nbody with no later heading").data) ("gpt-4") > 0 ∧
    chunk_discovery_content (("## Title\nbody with no later heading").data) 0 ("gpt-4") =
      [("## Title\nbody with no later heading").data] ∧
    chunk_discovery_content [] 0 ("gpt-4") = [[]] :=
  ⟨by decide, by decide,
    C10_no_marker_identity (("## Title\nbody with no later heading").data) 0 ("gpt-4") (by decide),
    C10_no_marker_identity [] 0 ("gpt-4") (by decide)⟩
